import Mathlib

/-!
Shallow embedding of the task-manager state container and derived view
builder of `src/src/contexts/TaskContext.tsx` (data model from
`src/src/models/Task.ts`), together with theorems settling the frozen
claims about the natural-language specification.

Modelling conventions:
* JavaScript `Date` values are modelled by their millisecond timestamp
  (a `Nat`); `setHours(0,0,0,0)` becomes truncation to a day boundary.
* Both `new Date()` reads inside one synchronous operation are modelled
  by a single `now` parameter of that operation.
* `uuidv4()` is modelled by an explicit `newId` parameter; claims that
  rely on its uniqueness hypothesise freshness explicitly.
* TypeScript optional fields (`field?: T`) become `Option T`; JavaScript
  truthiness of an optional string (`!task.categoryId`) is modelled
  faithfully: both `none` and the empty string are falsy.
* `String.prototype.toLowerCase` is modelled by ASCII case folding,
  which is what the claims (case-insensitive matching) exercise.
-/

namespace AlertTasker

inductive Priority where
  | low
  | medium
  | high
  deriving DecidableEq

inductive Status where
  | todo
  | inProgress
  | completed
  deriving DecidableEq

/-- The `Task` record of `src/src/models/Task.ts`. -/
structure Task where
  id : String
  title : String
  description : Option String
  createdAt : Nat
  updatedAt : Nat
  dueDate : Option Nat
  priority : Priority
  status : Status
  categoryId : Option String
  deriving DecidableEq

/-- The `Category` record of `src/src/models/Task.ts`. -/
structure Category where
  id : String
  name : String
  color : String
  deriving DecidableEq

/-- The canonical string of a `Priority`, as it appears at runtime. -/
def priorityStr : Priority → String
  | .low => "low"
  | .medium => "medium"
  | .high => "high"

/-- The canonical string of a `Status`, as it appears at runtime. -/
def statusStr : Status → String
  | .todo => "todo"
  | .inProgress => "in-progress"
  | .completed => "completed"

/-- The ids of the tasks of a collection, in collection order. -/
def taskIds (tasks : List Task) : List String :=
  tasks.map (fun t => t.id)

/-- The fields of `Omit<Task, 'id' | 'createdAt' | 'updatedAt'>`,
the argument of `addTask`. -/
structure TaskFields where
  title : String
  description : Option String
  dueDate : Option Nat
  priority : Priority
  status : Status
  categoryId : Option String
  deriving DecidableEq

/-- The new task built by `addTask`: the given fields, the generated id,
and `createdAt`/`updatedAt` both set to the operation time. -/
def mkTask (newId : String) (now : Nat) (f : TaskFields) : Task :=
  { id := newId
    title := f.title
    description := f.description
    createdAt := now
    updatedAt := now
    dueDate := f.dueDate
    priority := f.priority
    status := f.status
    categoryId := f.categoryId }

/-- `addTask` of `TaskContext.tsx`: `setTasks(prev => [...prev, newTask])`. -/
def addTask (tasks : List Task) (newId : String) (now : Nat) (f : TaskFields) :
    List Task :=
  tasks ++ [mkTask newId now f]

/-- A `Partial<Task>` patch: every field of `Task` may be present or
absent.  For the optional fields of `Task` a present entry carries an
`Option`, matching a patch that can also store `undefined`. -/
structure TaskPatch where
  id : Option String := none
  title : Option String := none
  description : Option (Option String) := none
  createdAt : Option Nat := none
  updatedAt : Option Nat := none
  dueDate : Option (Option Nat) := none
  priority : Option Priority := none
  status : Option Status := none
  categoryId : Option (Option String) := none
  deriving DecidableEq

/-- The spread `{ ...task, ...updatedFields, updatedAt: new Date() }` of
`updateTask`: a present patch field overrides the task's field, and the
trailing literal sets `updatedAt` to the operation time regardless of
the patch. -/
def applyPatch (t : Task) (p : TaskPatch) (now : Nat) : Task :=
  { id := p.id.getD t.id
    title := p.title.getD t.title
    description := p.description.getD t.description
    createdAt := p.createdAt.getD t.createdAt
    updatedAt := now
    dueDate := p.dueDate.getD t.dueDate
    priority := p.priority.getD t.priority
    status := p.status.getD t.status
    categoryId := p.categoryId.getD t.categoryId }

/-- `updateTask` of `TaskContext.tsx`: map over the collection, patching
the tasks whose id matches. -/
def updateTask (i : String) (now : Nat) (p : TaskPatch) (tasks : List Task) :
    List Task :=
  tasks.map (fun t => if t.id = i then applyPatch t p now else t)

/-- `deleteTask` of `TaskContext.tsx`: `prev.filter(task => task.id !== id)`. -/
def deleteTask (i : String) (tasks : List Task) : List Task :=
  tasks.filter (fun t => t.id != i)

/-- The two canonical collections held by the provider. -/
structure AppState where
  tasks : List Task
  categories : List Category
  deriving DecidableEq

/-- The per-task part of `deleteCategory`:
`task.categoryId === id ? { ...task, categoryId: undefined } : task`. -/
def clearCat (c : String) (t : Task) : Task :=
  if t.categoryId = some c then { t with categoryId := none } else t

/-- `deleteCategory` of `TaskContext.tsx`: clear the reference on every
task that carries it, then filter the category out of the collection. -/
def deleteCategory (c : String) (st : AppState) : AppState :=
  { tasks := st.tasks.map (clearCat c)
    categories := st.categories.filter (fun cat => cat.id != c) }

/-- ASCII case folding of one character, modelling the effect of
`String.prototype.toLowerCase` on the claim-relevant alphabet. -/
def charLower (c : Char) : Char :=
  if 65 ≤ c.toNat ∧ c.toNat ≤ 90 then Char.ofNat (c.toNat + 32) else c

/-- Lower-casing of a string (ASCII model of `toLowerCase()`). -/
def jsToLower (s : String) : String :=
  String.mk (s.data.map charLower)

/-- `sub` starts the character list `hay`. -/
def leadsChars : List Char → List Char → Bool
  | [], _ => true
  | _ :: _, [] => false
  | a :: as, b :: bs => a == b && leadsChars as bs

/-- `sub` occurs contiguously inside `hay`
(the semantics of `String.prototype.includes`). -/
def containsChars : List Char → List Char → Bool
  | [], sub => sub.isEmpty
  | h :: t, sub => leadsChars sub (h :: t) || containsChars t sub

/-- `s.toLowerCase().includes(q.toLowerCase())`. -/
def strIncludes (s q : String) : Bool :=
  containsChars (jsToLower s).data (jsToLower q).data

/-- The search predicate of `filteredTasks`. -/
def matchesSearch (q : String) (t : Task) : Bool :=
  q == "" || strIncludes t.title q ||
    (match t.description with
     | some d => strIncludes d q
     | none => false)

/-- The priority predicate of `filteredTasks`. -/
def matchesPriority (p : String) (t : Task) : Bool :=
  p == "all" || priorityStr t.priority == p

/-- JavaScript truthiness of an optional string: present and non-empty. -/
def jsStrOptTruthy : Option String → Bool
  | none => false
  | some s => !s.data.isEmpty

/-- The category predicate of `filteredTasks`. -/
def matchesCategory (c : String) (t : Task) : Bool :=
  c == "all" || (c == "none" && !jsStrOptTruthy t.categoryId) ||
    t.categoryId == some c

/-- The conjunction of the three filter predicates. -/
def filterTask (q p c : String) (t : Task) : Bool :=
  matchesSearch q t && matchesPriority p t && matchesCategory c t

/-- `filteredTasks` of the page component: the tasks passing all three
predicates, in collection order. -/
def filteredTasks (q p c : String) (tasks : List Task) : List Task :=
  tasks.filter (filterTask q p c)

/-- Milliseconds per day. -/
def msPerDay : Nat := 86400000

/-- Truncation of a timestamp to its day boundary
(the model of `setHours(0, 0, 0, 0)`). -/
def startOfDay (t : Nat) : Nat := t - t % msPerDay

inductive DateBucket where
  | overdue
  | today
  | tomorrow
  | upcoming
  | noDate
  deriving DecidableEq

/-- The if/else chain of the date grouping, deciding the bucket of one
task: no due date, else overdue when due before today and not completed,
else today, else tomorrow, else upcoming. -/
def bucketOf (now : Nat) (t : Task) : DateBucket :=
  match t.dueDate with
  | none => .noDate
  | some d =>
    let today := startOfDay now
    let tomorrow := today + msPerDay
    let due := startOfDay d
    if due < today ∧ t.status ≠ Status.completed then .overdue
    else if due = today then .today
    else if due = tomorrow then .tomorrow
    else .upcoming

/-- The five bucket lists of the date view. -/
structure DateBuckets where
  overdue : List Task
  today : List Task
  tomorrow : List Task
  upcoming : List Task
  noDate : List Task
  deriving DecidableEq

/-- The date grouping of `groupedTasks`: each task of the filtered list
is pushed, in order, onto the bucket the if/else chain selects. -/
def groupByDate (now : Nat) (tasks : List Task) : DateBuckets :=
  { overdue := tasks.filter (fun t => bucketOf now t == DateBucket.overdue)
    today := tasks.filter (fun t => bucketOf now t == DateBucket.today)
    tomorrow := tasks.filter (fun t => bucketOf now t == DateBucket.tomorrow)
    upcoming := tasks.filter (fun t => bucketOf now t == DateBucket.upcoming)
    noDate := tasks.filter (fun t => bucketOf now t == DateBucket.noDate) }

/-- The grouping key of one task in category view:
`task.categoryId || 'none'` (an absent or empty id is falsy). -/
def categoryKey (t : Task) : String :=
  match t.categoryId with
  | none => "none"
  | some s => if s.data.isEmpty then "none" else s

/-- Assignment to a record key (`result[k] = v`): replace the value when
the key is present, append the entry when it is new. -/
def setEntry (k : String) (v : List Task) :
    List (String × List Task) → List (String × List Task)
  | [] => [(k, v)]
  | (k2, w) :: rest =>
    if k2 = k then (k2, v) :: rest else (k2, w) :: setEntry k v rest

/-- `result[k].push(t)` with on-demand creation of the bucket
(`if (!result[k]) result[k] = []`). -/
def pushTask (k : String) (t : Task) :
    List (String × List Task) → List (String × List Task)
  | [] => [(k, [t])]
  | (k2, ts) :: rest =>
    if k2 = k then (k2, ts ++ [t]) :: rest else (k2, ts) :: pushTask k t rest

/-- Key lookup in the insertion-ordered record. -/
def lookupB (k : String) : List (String × List Task) → Option (List Task)
  | [] => none
  | (k2, v) :: rest => if k2 = k then some v else lookupB k rest

/-- The seed record of the category grouping:
`{ 'none': [] }` followed by `result[cat.id] = []` for each category. -/
def initCatBuckets (cats : List Category) : List (String × List Task) :=
  cats.foldl (fun acc c => setEntry c.id [] acc) [("none", [])]

/-- The category grouping of `groupedTasks`: seed the buckets, then push
every task onto the bucket of its key, creating missing buckets. -/
def groupByCategory (cats : List Category) (tasks : List Task) :
    List (String × List Task) :=
  tasks.foldl (fun acc t => pushTask (categoryKey t) t acc) (initCatBuckets cats)

/-- Character of a decimal digit. -/
def digitChar (d : Nat) : Char := Char.ofNat (d + 48)

/-- The string a timestamp is persisted as.  The platform serializer
(`JSON.stringify` calling `Date.prototype.toISOString`) is not part of
this repository; per the spec it renders a timestamp as an ISO-like
string, an injective, always non-empty rendering of the millisecond
value, modelled here by a marker character followed by the decimal
digits of the timestamp. -/
def encodeDate (n : Nat) : String :=
  String.mk (Char.ofNat 68 :: (Nat.digits 10 n).map digitChar)

/-- Rehydration of a persisted timestamp string back to the timestamp
(the model of `new Date(string)` on the strings `encodeDate` emits). -/
def decodeDate (s : String) : Nat :=
  Nat.ofDigits 10 ((s.data.drop 1).map (fun c => c.toNat - 48))

/-- Parse of a persisted priority string (stored strings are always the
canonical ones, so the fallback is never exercised on stored data). -/
def priorityOfStr (s : String) : Priority :=
  if s = "low" then .low else if s = "medium" then .medium else .high

/-- Parse of a persisted status string. -/
def statusOfStr (s : String) : Status :=
  if s = "todo" then .todo
  else if s = "in-progress" then .inProgress
  else .completed

/-- A task record as it sits in local storage after `JSON.stringify`:
date fields are strings, enum fields are their runtime strings, absent
optional fields stay absent. -/
structure StoredTask where
  id : String
  title : String
  description : Option String
  createdAt : String
  updatedAt : String
  dueDate : Option String
  priority : String
  status : String
  categoryId : Option String
  deriving DecidableEq

/-- Serialization of one task (the `JSON.stringify(tasks)` effect on one
record). -/
def storeTask (t : Task) : StoredTask :=
  { id := t.id
    title := t.title
    description := t.description
    createdAt := encodeDate t.createdAt
    updatedAt := encodeDate t.updatedAt
    dueDate := t.dueDate.map encodeDate
    priority := priorityStr t.priority
    status := statusStr t.status
    categoryId := t.categoryId }

/-- The load-time rehydration of `TaskProvider`:
`{ ...task, createdAt: new Date(task.createdAt), updatedAt: new
Date(task.updatedAt), dueDate: task.dueDate ? new Date(task.dueDate) :
undefined }` — the due date ternary tests JS truthiness of the stored
string. -/
def loadTask (s : StoredTask) : Task :=
  { id := s.id
    title := s.title
    description := s.description
    createdAt := decodeDate s.createdAt
    updatedAt := decodeDate s.updatedAt
    dueDate :=
      match s.dueDate with
      | none => none
      | some str => if str.data.isEmpty then none else some (decodeDate str)
    priority := priorityOfStr s.priority
    status := statusOfStr s.status
    categoryId := s.categoryId }

/-- Serialization of the whole collection. -/
def storeTasks (tasks : List Task) : List StoredTask := tasks.map storeTask

/-- Deserialization of the whole collection. -/
def loadTasks (stored : List StoredTask) : List Task := stored.map loadTask

/-- The state-container operations a UI session can issue, each carrying
the data the corresponding handler receives (`addT` also carries the id
the generator returns and the operation time). -/
inductive Op where
  | addT : String → Nat → TaskFields → Op
  | updT : String → Nat → TaskPatch → Op
  | delT : String → Op
  | delC : String → Op

/-- One operation applied to the state. -/
def applyOp (st : AppState) : Op → AppState
  | .addT newId now f => { st with tasks := addTask st.tasks newId now f }
  | .updT i now p => { st with tasks := updateTask i now p st.tasks }
  | .delT i => { st with tasks := deleteTask i st.tasks }
  | .delC c => deleteCategory c st

/-- A sequence of operations applied left to right. -/
def applyOps (st : AppState) (ops : List Op) : AppState :=
  ops.foldl applyOp st

/-- Side condition of one operation: the id generator returned a fresh
id (for add), and the update patch does not carry an id. -/
def OpOk (st : AppState) : Op → Prop
  | .addT newId _ _ => newId ∉ taskIds st.tasks
  | .updT _ _ p => p.id = none
  | .delT _ => True
  | .delC _ => True

/-- The side conditions hold at every point of the sequence. -/
def OpsOk : AppState → List Op → Prop
  | _, [] => True
  | st, op :: rest => OpOk st op ∧ OpsOk (applyOp st op) rest

/-- Occurrence of the search text in a string, formulated as the spec
reads: the lower-cased text appears contiguously inside the lower-cased
string. -/
def occursIn (q s : String) : Prop :=
  ∃ l r, (jsToLower s).data = l ++ (jsToLower q).data ++ r

/-- The positional relation `updateTask` is claimed to establish between
the old and new collection, for a patch that carries no id: a matching
task keeps id and unmentioned fields, takes the patched values
(`updatedAt` becomes the operation time), and a non-matching task is
untouched. -/
def patchRel (i : String) (now : Nat) (p : TaskPatch) (t r : Task) : Prop :=
  (t.id = i →
    r.id = t.id ∧
    r.title = p.title.getD t.title ∧
    r.description = p.description.getD t.description ∧
    r.createdAt = p.createdAt.getD t.createdAt ∧
    r.updatedAt = now ∧
    r.dueDate = p.dueDate.getD t.dueDate ∧
    r.priority = p.priority.getD t.priority ∧
    r.status = p.status.getD t.status ∧
    r.categoryId = p.categoryId.getD t.categoryId) ∧
  (t.id ≠ i → r = t)

/-- Concrete task used by the C2 counterexample (id `"a"`). -/
def tC2 : Task :=
  { id := "a", title := "Buy milk", description := none, createdAt := 1,
    updatedAt := 1, dueDate := none, priority := .low, status := .todo,
    categoryId := none }

/-- A `Partial<Task>` patch that mentions `id` and `updatedAt`. -/
def pC2 : TaskPatch := { id := some "b", updatedAt := some 5 }

/-- Concrete task used by the C2 witness. -/
def tW2 : Task :=
  { id := "w2", title := "Old title", description := some "d",
    createdAt := 2, updatedAt := 2, dueDate := some 10, priority := .low,
    status := .todo, categoryId := some "cat" }

/-- An ordinary patch (no id, no updatedAt) for the C2 witness. -/
def pW2 : TaskPatch := { title := some "New title", status := some .completed }

/-- A task due yesterday and already completed (C3 counterexample). -/
def tC3 : Task :=
  { id := "c3", title := "report", description := none, createdAt := 0,
    updatedAt := 0, dueDate := some (msPerDay + 1), priority := .high,
    status := .completed, categoryId := none }

/-- A current time on the second day after the epoch. -/
def nowC3 : Nat := 2 * msPerDay + 1

/-- A task with a dangling category reference (C4 counterexample). -/
def tC4 : Task :=
  { id := "t4", title := "orphan", description := none, createdAt := 0,
    updatedAt := 0, dueDate := none, priority := .low, status := .todo,
    categoryId := some "ghost" }

/-- Category used by the C4 witness. -/
def catW4 : Category := { id := "w", name := "Work", color := "blue" }

/-- C4 witness task referencing the existing category. -/
def tW4a : Task :=
  { id := "1", title := "one", description := none, createdAt := 0,
    updatedAt := 0, dueDate := none, priority := .low, status := .todo,
    categoryId := some "w" }

/-- C4 witness task with no category. -/
def tW4b : Task :=
  { id := "2", title := "two", description := none, createdAt := 0,
    updatedAt := 0, dueDate := none, priority := .low, status := .todo,
    categoryId := none }

/-- C4 witness task with a dangling reference. -/
def tW4c : Task :=
  { id := "3", title := "three", description := none, createdAt := 0,
    updatedAt := 0, dueDate := none, priority := .low, status := .todo,
    categoryId := some "gone" }

/-- A task whose category reference is the empty string (C5
counterexample: JavaScript treats it as falsy). -/
def tC5 : Task :=
  { id := "e", title := "Pay rent", description := none, createdAt := 0,
    updatedAt := 0, dueDate := none, priority := .low, status := .todo,
    categoryId := some "" }

/-- The task titled `"Buy groceries"` of the spec's filter example. -/
def tGro : Task :=
  { id := "g", title := "Buy groceries", description := none, createdAt := 0,
    updatedAt := 0, dueDate := none, priority := .medium, status := .todo,
    categoryId := none }

/-- The task titled `"Pay bills"` of the spec's filter example. -/
def tBill : Task :=
  { id := "b", title := "Pay bills", description := none, createdAt := 0,
    updatedAt := 0, dueDate := none, priority := .medium, status := .todo,
    categoryId := none }

/-- Fields for the C6 witness. -/
def fW6 : TaskFields :=
  { title := "write report", description := none, dueDate := none,
    priority := .medium, status := .todo, categoryId := none }

/-- C7 counterexample task with id `"a"`. -/
def taC7 : Task :=
  { id := "a", title := "first", description := none, createdAt := 0,
    updatedAt := 0, dueDate := none, priority := .low, status := .todo,
    categoryId := none }

/-- C7 counterexample task with id `"b"`. -/
def tbC7 : Task :=
  { id := "b", title := "second", description := none, createdAt := 0,
    updatedAt := 0, dueDate := none, priority := .low, status := .todo,
    categoryId := none }

/-- C7 counterexample state: two tasks with distinct ids. -/
def stC7 : AppState := { tasks := [taC7, tbC7], categories := [] }

/-- A patch whose `id` entry collides with the other task's id. -/
def pC7 : TaskPatch := { id := some "b" }

/-- C7 witness state. -/
def stW7 : AppState := { tasks := [taC7], categories := [] }

/-- Fields for the C7 witness add operation. -/
def fW7 : TaskFields :=
  { title := "added", description := none, dueDate := none,
    priority := .low, status := .todo, categoryId := none }

/-- C7 witness operation sequence: one add with a fresh id. -/
def opsW7 : List Op := [Op.addT "b" 1 fW7]

/-- Task used by the C8 witness. -/
def tW8 : Task :=
  { id := "w8", title := "kept", description := none, createdAt := 0,
    updatedAt := 0, dueDate := none, priority := .low, status := .todo,
    categoryId := none }

/-- The per-task relation `deleteCategory` is claimed to establish: a
task referencing the deleted category loses exactly its reference, any
other task is untouched. -/
def clearRel (c : String) (t r : Task) : Prop :=
  (t.categoryId = some c →
    r.id = t.id ∧
    r.title = t.title ∧
    r.description = t.description ∧
    r.createdAt = t.createdAt ∧
    r.updatedAt = t.updatedAt ∧
    r.dueDate = t.dueDate ∧
    r.priority = t.priority ∧
    r.status = t.status ∧
    r.categoryId = none) ∧
  (t.categoryId ≠ some c → r = t)

theorem taskIds_cons (t : Task) (rest : List Task) :
    taskIds (t :: rest) = t.id :: taskIds rest := rfl

theorem forall2_map {R : Task → Task → Prop} {f : Task → Task}
    (h : ∀ t, R t (f t)) : ∀ l : List Task, List.Forall₂ R l (l.map f)
  | [] => List.Forall₂.nil
  | t :: rest => List.Forall₂.cons (h t) (forall2_map h rest)

theorem clearCat_id (c : String) (t : Task) : (clearCat c t).id = t.id := by
  unfold clearCat
  split <;> rfl

theorem taskIds_addTask (tasks : List Task) (newId : String) (now : Nat)
    (f : TaskFields) :
    taskIds (addTask tasks newId now f) = taskIds tasks ++ [newId] := by
  simp [taskIds, addTask, mkTask]

theorem applyPatch_id_of_none {p : TaskPatch} (h : p.id = none)
    (t : Task) (now : Nat) : (applyPatch t p now).id = t.id := by
  simp [applyPatch, h]

theorem taskIds_updateTask_of_idNone {p : TaskPatch} (h : p.id = none)
    (i : String) (now : Nat) (tasks : List Task) :
    taskIds (updateTask i now p tasks) = taskIds tasks := by
  unfold taskIds updateTask
  rw [List.map_map]
  apply List.map_congr_left
  intro t _
  by_cases ht : t.id = i
  · simp [Function.comp, ht, applyPatch_id_of_none h]
  · simp [Function.comp, ht]

theorem deleteTask_sublist (i : String) (tasks : List Task) :
    List.Sublist (deleteTask i tasks) tasks :=
  List.filter_sublist tasks

theorem taskIds_deleteCategory (c : String) (st : AppState) :
    taskIds (deleteCategory c st).tasks = taskIds st.tasks := by
  unfold taskIds deleteCategory
  rw [List.map_map]
  exact List.map_congr_left (fun t _ => clearCat_id c t)

/-- C1: for every state and identifier `c`, `deleteCategory` removes
exactly the categories with id `c` from the category collection, and
relates the old and new task lists positionally: a task whose
`categoryId` equals `c` keeps every other field and loses the
reference, and every other task is unchanged. -/
theorem deleteCategory_removes_and_clears_C1 (st : AppState) (c : String) :
    (∀ cat, cat ∈ (deleteCategory c st).categories ↔
      cat ∈ st.categories ∧ cat.id ≠ c) ∧
    List.Forall₂ (clearRel c) st.tasks (deleteCategory c st).tasks := by
  constructor
  · intro cat
    simp [deleteCategory, List.mem_filter]
  · apply forall2_map
    intro t
    unfold clearRel clearCat
    by_cases h : t.categoryId = some c
    · simp [h]
    · simp [h]

/-- C8: when no task carries the identifier, `deleteTask` and
`updateTask` leave the collection unchanged (both operations are total
functions of the embedding: no typed error exists to report). -/
theorem missing_id_noop_C8 (tasks : List Task) (i : String) (now : Nat)
    (p : TaskPatch) (h : i ∉ taskIds tasks) :
    deleteTask i tasks = tasks ∧ updateTask i now p tasks = tasks := by
  induction tasks with
  | nil => simp [deleteTask, updateTask]
  | cons t rest ih =>
    rw [taskIds_cons] at h
    simp only [List.mem_cons, not_or] at h
    obtain ⟨h1, h2⟩ := h
    obtain ⟨ihd, ihu⟩ := ih h2
    have hne : ¬ t.id = i := fun e => h1 e.symm
    constructor
    · simp [deleteTask, List.filter_cons, hne]
      simpa [deleteTask] using ihd
    · simp [updateTask, hne]
      simpa [updateTask] using ihu

/-- C8 witness: concrete collection, absent id, both operations no-ops. -/
theorem missing_id_noop_witness_C8 :
    ("z" ∉ taskIds [tW8]) ∧
    (deleteTask "z" [tW8] = [tW8] ∧ updateTask "z" 5 {} [tW8] = [tW8]) :=
  ⟨by decide, missing_id_noop_C8 [tW8] "z" 5 {} (by decide)⟩

/-- C6: with a fresh generated id, `addTask` extends the collection by
exactly one task at the end, carrying the given fields, the fresh id,
and equal creation and update timestamps. -/
theorem addTask_spec_C6 (tasks : List Task) (newId : String) (now : Nat)
    (f : TaskFields) (h : newId ∉ taskIds tasks) :
    ∃ t, addTask tasks newId now f = tasks ++ [t] ∧
      t.id = newId ∧ t.id ∉ taskIds tasks ∧ t.createdAt = t.updatedAt ∧
      t.title = f.title ∧ t.description = f.description ∧
      t.dueDate = f.dueDate ∧ t.priority = f.priority ∧
      t.status = f.status ∧ t.categoryId = f.categoryId :=
  ⟨mkTask newId now f, rfl, rfl, h, rfl, rfl, rfl, rfl, rfl, rfl, rfl⟩

/-- C6 witness: adding to the empty collection with a concrete fresh id. -/
theorem addTask_witness_C6 :
    ("id-1" ∉ taskIds []) ∧
    ∃ t, addTask [] "id-1" 3 fW6 = [] ++ [t] ∧
      t.id = "id-1" ∧ t.id ∉ taskIds [] ∧ t.createdAt = t.updatedAt ∧
      t.title = fW6.title ∧ t.description = fW6.description ∧
      t.dueDate = fW6.dueDate ∧ t.priority = fW6.priority ∧
      t.status = fW6.status ∧ t.categoryId = fW6.categoryId :=
  ⟨by decide, addTask_spec_C6 [] "id-1" 3 fW6 (by decide)⟩

/-- C10: adding appends the new task at the end of the collection;
updating keeps every task at its position (patched or untouched);
deleting yields a sublist, preserving the relative order of the
remaining tasks; deleting a category keeps the task id sequence
unchanged. -/
theorem order_preservation_C10 :
    (∀ (tasks : List Task) newId now f,
      taskIds (addTask tasks newId now f) = taskIds tasks ++ [newId]) ∧
    (∀ (tasks : List Task) i now p,
      List.Forall₂
        (fun t r => (t.id = i ∧ r = applyPatch t p now) ∨ (t.id ≠ i ∧ r = t))
        tasks (updateTask i now p tasks)) ∧
    (∀ (tasks : List Task) i, List.Sublist (deleteTask i tasks) tasks) ∧
    (∀ (st : AppState) c,
      taskIds (deleteCategory c st).tasks = taskIds st.tasks) := by
  refine ⟨taskIds_addTask, ?_, fun tasks i => deleteTask_sublist i tasks,
    fun st c => taskIds_deleteCategory c st⟩
  intro tasks i now p
  apply forall2_map
  intro t
  by_cases ht : t.id = i
  · simp [ht]
  · simp [ht]

/-- C2 counterexample: a `Partial<Task>` patch may mention `id` and
`updatedAt`.  Updating task `"a"` with the patch `pC2` (id `"b"`,
updatedAt `5`) at time `99` renames the stored task to `"b"` — the task
does not keep its identifier — and stores `updatedAt = 99`, not the
patched value `5`. -/
theorem updateTask_patch_counterexample_C2 :
    taskIds (updateTask "a" 99 pC2 [tC2]) = ["b"] ∧
    (updateTask "a" 99 pC2 [tC2]).map (fun t => t.updatedAt) = [99] ∧
    pC2.id = some "b" ∧ pC2.updatedAt = some 5 ∧
    tC2.id = "a" ∧ ("b" : String) ≠ "a" ∧ (99 : Nat) ≠ 5 := by decide

/-- C2 (amended): for every patch that does not mention `id`, updating
the task with id `i` keeps that task's position and identifier, keeps
every field the patch does not mention, takes the patched values for
the mentioned fields other than `updatedAt`, sets `updatedAt` to the
time of the update, and leaves every other task unchanged. -/
theorem updateTask_patch_spec_C2 (tasks : List Task) (i : String)
    (now : Nat) (p : TaskPatch) (h : p.id = none) :
    List.Forall₂ (patchRel i now p) tasks (updateTask i now p tasks) := by
  apply forall2_map
  intro t
  unfold patchRel
  by_cases ht : t.id = i
  · simp [ht, applyPatch, h]
  · simp [ht]

/-- C2 witness: a concrete ordinary patch applied to a one-task
collection. -/
theorem updateTask_patch_witness_C2 :
    pW2.id = none ∧
    List.Forall₂ (patchRel "w2" 7 pW2) [tW2] (updateTask "w2" 7 pW2 [tW2]) :=
  ⟨rfl, updateTask_patch_spec_C2 [tW2] "w2" 7 pW2 rfl⟩

/-- C7 counterexample: from a state with distinct task ids, a single
`updateTask` whose patch mentions `id` (no id is generated anywhere in
this sequence) produces two tasks sharing id `"b"`. -/
theorem uniqueness_counterexample_C7 :
    (taskIds stC7.tasks).Nodup ∧
    ¬ (taskIds (applyOps stC7 [Op.updT "a" 5 pC7]).tasks).Nodup := by decide

theorem applyOp_nodup {st : AppState} {op : Op}
    (hn : (taskIds st.tasks).Nodup) (hok : OpOk st op) :
    (taskIds (applyOp st op).tasks).Nodup := by
  cases op with
  | addT newId now f =>
    have hfresh : newId ∉ taskIds st.tasks := hok
    simp only [applyOp]
    rw [taskIds_addTask]
    simp [List.nodup_append, hn, hfresh]
  | updT i now p =>
    have hid : p.id = none := hok
    simp only [applyOp]
    rw [taskIds_updateTask_of_idNone hid]
    exact hn
  | delT i =>
    simp only [applyOp]
    exact List.Nodup.sublist (List.Sublist.map _ (deleteTask_sublist i st.tasks)) hn
  | delC c =>
    simp only [applyOp]
    rw [taskIds_deleteCategory]
    exact hn

/-- C7 (amended): assuming every add in the sequence receives a fresh id
and every update patch leaves `id` unmentioned, any sequence of add,
update, delete and delete-category operations preserves pairwise
distinctness of the task identifiers. -/
theorem uniqueness_invariant_C7 (ops : List Op) (st : AppState)
    (hn : (taskIds st.tasks).Nodup) (hok : OpsOk st ops) :
    (taskIds (applyOps st ops).tasks).Nodup := by
  induction ops generalizing st with
  | nil => exact hn
  | cons op rest ih =>
    obtain ⟨h1, h2⟩ := hok
    exact ih (applyOp st op) (applyOp_nodup hn h1) h2

/-- C7 witness: one fresh add on a one-task state. -/
theorem uniqueness_witness_C7 :
    (taskIds stW7.tasks).Nodup ∧ OpsOk stW7 opsW7 ∧
    (taskIds (applyOps stW7 opsW7).tasks).Nodup :=
  ⟨by decide,
   ⟨(by decide : ("b" : String) ∉ taskIds stW7.tasks), trivial⟩,
   uniqueness_invariant_C7 opsW7 stW7 (by decide)
     ⟨(by decide : ("b" : String) ∉ taskIds stW7.tasks), trivial⟩⟩

theorem leads_iff (sub hay : List Char) :
    leadsChars sub hay = true ↔ ∃ r, hay = sub ++ r := by
  induction sub generalizing hay with
  | nil => simp [leadsChars]
  | cons a as ih =>
    cases hay with
    | nil => simp [leadsChars]
    | cons b bs =>
      simp only [leadsChars, Bool.and_eq_true, beq_iff_eq, ih,
        List.cons_append, List.cons.injEq]
      constructor
      · rintro ⟨hab, r, hr⟩
        exact ⟨r, hab.symm, hr⟩
      · rintro ⟨r, hba, hr⟩
        exact ⟨hba.symm, r, hr⟩

theorem contains_iff (hay sub : List Char) :
    containsChars hay sub = true ↔ ∃ l r, hay = l ++ sub ++ r := by
  induction hay with
  | nil =>
    simp only [containsChars, List.isEmpty_iff]
    constructor
    · rintro rfl
      exact ⟨[], [], rfl⟩
    · rintro ⟨l, r, h⟩
      rcases List.append_eq_nil.mp h.symm with ⟨h1, h2⟩
      exact (List.append_eq_nil.mp h1).2
  | cons h tl ih =>
    simp only [containsChars, Bool.or_eq_true, leads_iff, ih]
    constructor
    · rintro (⟨r, hr⟩ | ⟨l, r, hr⟩)
      · exact ⟨[], r, by simpa using hr⟩
      · exact ⟨h :: l, r, by simp [hr]⟩
    · rintro ⟨l, r, hr⟩
      cases l with
      | nil => exact Or.inl ⟨r, by simpa using hr⟩
      | cons x l2 =>
        have hr2 : h = x ∧ tl = l2 ++ sub ++ r := by
          simpa using hr
        exact Or.inr ⟨l2, r, hr2.2⟩

theorem strIncludes_iff (s q : String) :
    strIncludes s q = true ↔ occursIn q s :=
  contains_iff (jsToLower s).data (jsToLower q).data

theorem jsStrOptTruthy_false_iff (o : Option String) :
    (!jsStrOptTruthy o) = true ↔ (o = none ∨ o = some "") := by
  cases o with
  | none => simp [jsStrOptTruthy]
  | some s =>
    simp only [jsStrOptTruthy, Bool.not_not, Option.some.injEq, false_or]
    rw [List.isEmpty_iff]
    constructor
    · intro hd
      cases s with
      | mk d =>
        simp only [String.data] at hd
        simp [hd]
    · intro hs
      rcases hs with hs | hs
      · exact absurd hs (by simp)
      · subst hs
        rfl

theorem matchesSearch_iff (q : String) (t : Task) :
    matchesSearch q t = true ↔
      (q = "" ∨ occursIn q t.title ∨
        ∃ ds, t.description = some ds ∧ occursIn q ds) := by
  unfold matchesSearch
  cases hd : t.description with
  | none => simp [strIncludes_iff, or_assoc]
  | some ds => simp [strIncludes_iff, or_assoc]

theorem matchesPriority_iff (p : String) (t : Task) :
    matchesPriority p t = true ↔ (p = "all" ∨ priorityStr t.priority = p) := by
  simp [matchesPriority]

theorem matchesCategory_iff (c : String) (t : Task) :
    matchesCategory c t = true ↔
      (c = "all" ∨ (c = "none" ∧ (t.categoryId = none ∨ t.categoryId = some "")) ∨
        t.categoryId = some c) := by
  unfold matchesCategory
  rw [Bool.or_eq_true, Bool.or_eq_true, Bool.and_eq_true,
    jsStrOptTruthy_false_iff]
  simp [beq_iff_eq, or_assoc]

/-- C5 counterexample: the task `tC5` carries the category reference
`some ""`.  With empty search text, priority `"all"` and category
selection `"none"` the code accepts it (the empty string is falsy in
JavaScript), although the selection is not `"all"`, the task's category
reference is present, and the reference does not equal the selection. -/
theorem filter_counterexample_C5 :
    filterTask "" "all" "none" tC5 = true ∧
    ¬ (("none" : String) = "all" ∨
       (("none" : String) = "none" ∧ tC5.categoryId = none) ∨
       tC5.categoryId = some "none") := by decide

/-- C5 (amended): a task passes the filter iff the search text is empty
or occurs case-insensitively in its title or description, the priority
selection is `"all"` or equals the task's priority, and the category
selection is `"all"`, or is `"none"` while the task's category
reference is absent or the empty string, or equals the reference
exactly.  In particular, the text `"groceries"` over the titles
`"Buy groceries"` and `"Pay bills"` selects exactly the first. -/
theorem filteredTasks_spec_C5 :
    (∀ q p c tasks t, t ∈ filteredTasks q p c tasks ↔
      t ∈ tasks ∧
      (q = "" ∨ occursIn q t.title ∨
        ∃ ds, t.description = some ds ∧ occursIn q ds) ∧
      (p = "all" ∨ priorityStr t.priority = p) ∧
      (c = "all" ∨ (c = "none" ∧ (t.categoryId = none ∨ t.categoryId = some "")) ∨
        t.categoryId = some c)) ∧
    filteredTasks "groceries" "all" "all" [tGro, tBill] = [tGro] := by
  constructor
  · intro q p c tasks t
    unfold filteredTasks
    rw [List.mem_filter]
    unfold filterTask
    rw [Bool.and_eq_true, Bool.and_eq_true,
      matchesSearch_iff, matchesPriority_iff, matchesCategory_iff]
    tauto
  · decide

theorem msPerDay_dvd_startOfDay (x : Nat) : msPerDay ∣ startOfDay x := by
  refine ⟨x / msPerDay, ?_⟩
  unfold startOfDay msPerDay
  omega

theorem day_gap {a b : Nat} (ha : msPerDay ∣ a) (hb : msPerDay ∣ b)
    (h : b < a) : b + msPerDay ≤ a := by
  obtain ⟨i, rfl⟩ := ha
  obtain ⟨j, rfl⟩ := hb
  unfold msPerDay at *
  omega

theorem chain_eq_overdue {A B C : Prop} [Decidable A] [Decidable B]
    [Decidable C] :
    (if A then DateBucket.overdue else if B then DateBucket.today
      else if C then DateBucket.tomorrow else DateBucket.upcoming) =
      DateBucket.overdue ↔ A := by
  split_ifs <;> simp_all

theorem chain_eq_today {A B C : Prop} [Decidable A] [Decidable B]
    [Decidable C] :
    (if A then DateBucket.overdue else if B then DateBucket.today
      else if C then DateBucket.tomorrow else DateBucket.upcoming) =
      DateBucket.today ↔ (¬A ∧ B) := by
  split_ifs <;> simp_all

theorem chain_eq_tomorrow {A B C : Prop} [Decidable A] [Decidable B]
    [Decidable C] :
    (if A then DateBucket.overdue else if B then DateBucket.today
      else if C then DateBucket.tomorrow else DateBucket.upcoming) =
      DateBucket.tomorrow ↔ (¬A ∧ ¬B ∧ C) := by
  split_ifs <;> simp_all

theorem chain_eq_upcoming {A B C : Prop} [Decidable A] [Decidable B]
    [Decidable C] :
    (if A then DateBucket.overdue else if B then DateBucket.today
      else if C then DateBucket.tomorrow else DateBucket.upcoming) =
      DateBucket.upcoming ↔ (¬A ∧ ¬B ∧ ¬C) := by
  split_ifs <;> simp_all

theorem chain_ne_noDate {A B C : Prop} [Decidable A] [Decidable B]
    [Decidable C] :
    (if A then DateBucket.overdue else if B then DateBucket.today
      else if C then DateBucket.tomorrow else DateBucket.upcoming) ≠
      DateBucket.noDate := by
  split_ifs <;> simp_all

theorem upcoming_cond (D T : Nat) (s : Status)
    (hD : msPerDay ∣ D) (hT : msPerDay ∣ T) :
    (¬(D < T ∧ s ≠ Status.completed) ∧ D ≠ T ∧ D ≠ T + msPerDay) ↔
      (T + msPerDay < D ∨ (D < T ∧ s = Status.completed)) := by
  have hms : 0 < msPerDay := by decide
  by_cases hc : s = Status.completed
  · simp only [hc, ne_eq, not_true_eq_false, and_false, not_false_eq_true,
      true_and, and_true]
    constructor
    · rintro ⟨h1, h2⟩
      by_cases hlt : D < T
      · exact Or.inr hlt
      · have hTD : T < D := by omega
        have := day_gap hD hT hTD
        omega
    · rintro (h | h) <;> omega
  · simp only [hc, ne_eq, not_false_eq_true, and_true, and_false, or_false]
    constructor
    · rintro ⟨h1, h2, h3⟩
      have hTD : T < D := by omega
      have := day_gap hD hT hTD
      omega
    · intro h
      omega

theorem bucketOf_eq_noDate (now : Nat) (t : Task) :
    bucketOf now t = DateBucket.noDate ↔ t.dueDate = none := by
  cases hd : t.dueDate with
  | none => simp [bucketOf, hd]
  | some d =>
    simp only [bucketOf, hd]
    exact iff_of_false chain_ne_noDate (by simp)

theorem bucketOf_eq_overdue (now : Nat) (t : Task) :
    bucketOf now t = DateBucket.overdue ↔
      ∃ d, t.dueDate = some d ∧ startOfDay d < startOfDay now ∧
        t.status ≠ Status.completed := by
  cases hd : t.dueDate with
  | none => simp [bucketOf, hd]
  | some d =>
    simp only [bucketOf, hd, chain_eq_overdue, Option.some.injEq]
    constructor
    · intro h
      exact ⟨d, rfl, h⟩
    · rintro ⟨d2, rfl, h⟩
      exact h

theorem bucketOf_eq_today (now : Nat) (t : Task) :
    bucketOf now t = DateBucket.today ↔
      ∃ d, t.dueDate = some d ∧ startOfDay d = startOfDay now := by
  cases hd : t.dueDate with
  | none => simp [bucketOf, hd]
  | some d =>
    simp only [bucketOf, hd, chain_eq_today, Option.some.injEq]
    constructor
    · rintro ⟨h1, h2⟩
      exact ⟨d, rfl, h2⟩
    · rintro ⟨d2, rfl, h2⟩
      refine ⟨?_, h2⟩
      rintro ⟨hlt, hc⟩
      omega

theorem bucketOf_eq_tomorrow (now : Nat) (t : Task) :
    bucketOf now t = DateBucket.tomorrow ↔
      ∃ d, t.dueDate = some d ∧
        startOfDay d = startOfDay now + msPerDay := by
  have hms : 0 < msPerDay := by decide
  cases hd : t.dueDate with
  | none => simp [bucketOf, hd]
  | some d =>
    simp only [bucketOf, hd, chain_eq_tomorrow, Option.some.injEq]
    constructor
    · rintro ⟨h1, h2, h3⟩
      exact ⟨d, rfl, h3⟩
    · rintro ⟨d2, rfl, h3⟩
      refine ⟨?_, ?_, h3⟩
      · rintro ⟨hlt, hc⟩
        omega
      · omega

theorem bucketOf_eq_upcoming (now : Nat) (t : Task) :
    bucketOf now t = DateBucket.upcoming ↔
      ∃ d, t.dueDate = some d ∧
        (startOfDay now + msPerDay < startOfDay d ∨
          (startOfDay d < startOfDay now ∧ t.status = Status.completed)) := by
  cases hd : t.dueDate with
  | none => simp [bucketOf, hd]
  | some d =>
    simp only [bucketOf, hd, chain_eq_upcoming, Option.some.injEq]
    rw [show (¬(startOfDay d < startOfDay now ∧ t.status ≠ Status.completed) ∧
        startOfDay d ≠ startOfDay now ∧
        startOfDay d ≠ startOfDay now + msPerDay) ↔ _ from
      upcoming_cond (startOfDay d) (startOfDay now) t.status
        (msPerDay_dvd_startOfDay d) (msPerDay_dvd_startOfDay now)]
    constructor
    · intro h
      exact ⟨d, rfl, h⟩
    · rintro ⟨d2, rfl, h⟩
      exact h

/-- C3 counterexample: at the current time `nowC3`, the completed task
`tC3`, whose truncated due date lies strictly before the current day,
lands in the `upcoming` bucket — although its due date is not a later
date than tomorrow. -/
theorem dateBuckets_counterexample_C3 :
    tC3 ∈ (groupByDate nowC3 [tC3]).upcoming ∧
    tC3.dueDate = some (msPerDay + 1) ∧
    startOfDay (msPerDay + 1) < startOfDay nowC3 ∧
    tC3.status = Status.completed := by decide

/-- C3 (amended): in date view every task of the filtered list lands in
exactly one bucket, characterised by its truncated due date against the
current day boundary: `noDate` iff it has no due date; `overdue` iff
the due day is before today and the task is not completed; `today` iff
the due day equals today; `tomorrow` iff it equals tomorrow; and
`upcoming` iff the due day is strictly after tomorrow or the due day is
before today while the task is completed. -/
theorem dateBuckets_spec_C3 (now : Nat) (tasks : List Task) (t : Task) :
    (t ∈ (groupByDate now tasks).noDate ↔ t ∈ tasks ∧ t.dueDate = none) ∧
    (t ∈ (groupByDate now tasks).overdue ↔ t ∈ tasks ∧
      ∃ d, t.dueDate = some d ∧ startOfDay d < startOfDay now ∧
        t.status ≠ Status.completed) ∧
    (t ∈ (groupByDate now tasks).today ↔ t ∈ tasks ∧
      ∃ d, t.dueDate = some d ∧ startOfDay d = startOfDay now) ∧
    (t ∈ (groupByDate now tasks).tomorrow ↔ t ∈ tasks ∧
      ∃ d, t.dueDate = some d ∧
        startOfDay d = startOfDay now + msPerDay) ∧
    (t ∈ (groupByDate now tasks).upcoming ↔ t ∈ tasks ∧
      ∃ d, t.dueDate = some d ∧
        (startOfDay now + msPerDay < startOfDay d ∨
          (startOfDay d < startOfDay now ∧ t.status = Status.completed))) := by
  unfold groupByDate
  simp only [List.mem_filter, beq_iff_eq, bucketOf_eq_noDate,
    bucketOf_eq_overdue, bucketOf_eq_today, bucketOf_eq_tomorrow,
    bucketOf_eq_upcoming]
  tauto

theorem lookupB_setEntry (k k2 : String) (v : List Task)
    (m : List (String × List Task)) :
    lookupB k (setEntry k2 v m) =
      if k2 = k then some v else lookupB k m := by
  induction m with
  | nil =>
    simp only [setEntry, lookupB]
  | cons e rest ih =>
    obtain ⟨k3, w⟩ := e
    simp only [setEntry]
    by_cases h1 : k3 = k2
    · subst h1
      simp only [if_pos rfl, lookupB]
      by_cases h2 : k3 = k <;> simp [h2]
    · simp only [if_neg h1, lookupB, ih]
      by_cases h2 : k3 = k
      · subst h2
        have h3 : ¬ k2 = k3 := fun e => h1 e.symm
        simp [h3]
      · simp [h2]

theorem lookupB_pushTask (k k2 : String) (t : Task)
    (m : List (String × List Task)) :
    lookupB k (pushTask k2 t m) =
      if k2 = k then some ((lookupB k m).getD [] ++ [t])
      else lookupB k m := by
  induction m with
  | nil =>
    simp only [pushTask, lookupB]
    by_cases h : k2 = k <;> simp [h]
  | cons e rest ih =>
    obtain ⟨k3, w⟩ := e
    simp only [pushTask]
    by_cases h1 : k3 = k2
    · subst h1
      simp only [if_pos rfl, lookupB]
      by_cases h2 : k3 = k <;> simp [h2]
    · simp only [if_neg h1, lookupB, ih]
      by_cases h2 : k3 = k
      · subst h2
        have h3 : ¬ k2 = k3 := fun e => h1 e.symm
        simp [h3]
      · simp [h2]

theorem lookupB_foldl_setEntry (cats : List Category)
    (m : List (String × List Task)) (k : String) :
    lookupB k (cats.foldl (fun acc c => setEntry c.id [] acc) m) =
      if k ∈ cats.map (fun c => c.id) then some [] else lookupB k m := by
  induction cats generalizing m with
  | nil => simp
  | cons c rest ih =>
    simp only [List.foldl_cons, List.map_cons, List.mem_cons]
    rw [ih, lookupB_setEntry]
    by_cases h1 : k ∈ rest.map (fun c => c.id)
    · simp [h1]
    · by_cases h2 : c.id = k
      · simp [h1, h2]
      · have h3 : ¬ k = c.id := fun e => h2 e.symm
        simp [h1, h2, h3]

theorem lookupB_foldl_push (tasks : List Task)
    (m : List (String × List Task)) (k : String) :
    lookupB k (tasks.foldl (fun acc t => pushTask (categoryKey t) t acc) m) =
      match lookupB k m with
      | some b => some (b ++ tasks.filter (fun t => categoryKey t == k))
      | none =>
        if (tasks.filter (fun t => categoryKey t == k)).isEmpty then none
        else some (tasks.filter (fun t => categoryKey t == k)) := by
  induction tasks generalizing m with
  | nil =>
    cases h : lookupB k m <;> simp [h]
  | cons t rest ih =>
    simp only [List.foldl_cons]
    rw [ih, lookupB_pushTask]
    by_cases hk : categoryKey t = k
    · rw [if_pos hk]
      have hf : (t :: rest).filter (fun t => categoryKey t == k) =
          t :: rest.filter (fun t => categoryKey t == k) := by
        simp [List.filter_cons, hk]
      rw [hf]
      cases h : lookupB k m with
      | some b => simp [h, List.append_assoc]
      | none => simp [h]
    · rw [if_neg hk]
      have hf : (t :: rest).filter (fun t => categoryKey t == k) =
          rest.filter (fun t => categoryKey t == k) := by
        simp [List.filter_cons, hk]
      rw [hf]

/-- C4 counterexample: with no categories, the single task referencing
the non-existent category `"ghost"` is not placed in the uncategorized
bucket; instead a fresh bucket keyed `"ghost"` is created for it, so
the buckets are not one per existing category plus uncategorized. -/
theorem groupByCategory_counterexample_C4 :
    lookupB "none" (groupByCategory [] [tC4]) = some [] ∧
    lookupB "ghost" (groupByCategory [] [tC4]) = some [tC4] ∧
    tC4.categoryId = some "ghost" := by decide

/-- C4 (amended): in category view (for identifiers avoiding the
reserved key `"none"` and the empty string, and tasks not using the
literal reference `"none"`): the uncategorized bucket is always present
and holds exactly the tasks whose reference is absent or empty; every
existing category has a bucket, even when empty, holding exactly the
tasks referencing it; and a dangling referenced identifier gets a
bucket of its own — present exactly when some task references it —
holding the tasks that reference it, rather than those tasks being
treated as uncategorized. -/
theorem groupByCategory_spec_C4 (cats : List Category) (tasks : List Task)
    (cat : Category) (d : String)
    (hnone : tasks.all (fun t => t.categoryId != some "none") = true)
    (hcat : cat ∈ cats) (hcid1 : cat.id ≠ "none") (hcid2 : cat.id ≠ "")
    (hd1 : d ≠ "none") (hd2 : d ≠ "")
    (hd3 : d ∉ cats.map (fun c => c.id)) :
    lookupB "none" (groupByCategory cats tasks) =
      some (tasks.filter
        (fun t => t.categoryId == none || t.categoryId == some "")) ∧
    lookupB cat.id (groupByCategory cats tasks) =
      some (tasks.filter (fun t => t.categoryId == some cat.id)) ∧
    lookupB d (groupByCategory cats tasks) =
      (if (tasks.filter (fun t => t.categoryId == some d)).isEmpty then none
       else some (tasks.filter (fun t => t.categoryId == some d))) := by
  have hkey_none : ∀ t ∈ tasks,
      (categoryKey t == "none") =
        (t.categoryId == none || t.categoryId == some "") := by
    intro t ht
    have hne : t.categoryId ≠ some "none" := by
      have := List.all_eq_true.mp hnone t ht
      simpa using this
    unfold categoryKey
    cases hc : t.categoryId with
    | none => simp
    | some s =>
      by_cases hs : s.data.isEmpty
      · have : s = "" := by
          cases s with
          | mk dta =>
            rw [List.isEmpty_iff] at hs
            simp only [String.data] at hs
            simp [hs]
        simp [hs, this]
      · rw [hc] at hne
        have hsn : s ≠ "none" := fun e => hne (by rw [e])
        have hse : s ≠ "" := by
          intro e
          rw [e] at hs
          exact hs rfl
        simp [hs, hsn, hse]
  have hkey_id : ∀ (x : String), x ≠ "none" → x ≠ "" → ∀ t ∈ tasks,
      (categoryKey t == x) = (t.categoryId == some x) := by
    intro x hx1 hx2 t ht
    have ha : ¬ ("none" : String) = x := fun e => hx1 e.symm
    have hb : ¬ ("" : String) = x := fun e => hx2 e.symm
    unfold categoryKey
    cases hc : t.categoryId with
    | none => simp [ha]
    | some s =>
      by_cases hs : s.data.isEmpty
      · have hse : s = "" := by
          cases s with
          | mk dta =>
            rw [List.isEmpty_iff] at hs
            simp only [String.data] at hs
            simp [hs]
        subst hse
        simp [hs, ha, hb]
      · simp [hs]
  unfold groupByCategory initCatBuckets
  refine ⟨?_, ?_, ?_⟩
  · rw [lookupB_foldl_push]
    rw [lookupB_foldl_setEntry]
    rw [List.filter_congr hkey_none]
    by_cases h : ("none" : String) ∈ cats.map (fun c => c.id)
    · simp [h]
    · simp [h, lookupB]
  · rw [lookupB_foldl_push, lookupB_foldl_setEntry]
    have hmem : cat.id ∈ cats.map (fun c => c.id) :=
      List.mem_map_of_mem (fun c => c.id) hcat
    rw [if_pos hmem]
    rw [List.filter_congr (hkey_id cat.id hcid1 hcid2)]
    simp
  · rw [lookupB_foldl_push, lookupB_foldl_setEntry]
    rw [if_neg hd3]
    have hnd : ¬ ("none" : String) = d := fun e => hd1 e.symm
    have : lookupB d [(("none" : String), ([] : List Task))] = none := by
      simp [lookupB, hnd]
    rw [this]
    rw [List.filter_congr (hkey_id d hd1 hd2)]

/-- C4 witness: one category, one task per kind of reference. -/
theorem groupByCategory_witness_C4 :
    ([tW4a, tW4b, tW4c].all (fun t => t.categoryId != some "none") = true) ∧
    catW4 ∈ [catW4] ∧
    lookupB "none" (groupByCategory [catW4] [tW4a, tW4b, tW4c]) =
      some ([tW4a, tW4b, tW4c].filter
        (fun t => t.categoryId == none || t.categoryId == some "")) ∧
    lookupB catW4.id (groupByCategory [catW4] [tW4a, tW4b, tW4c]) =
      some ([tW4a, tW4b, tW4c].filter
        (fun t => t.categoryId == some catW4.id)) ∧
    lookupB "gone" (groupByCategory [catW4] [tW4a, tW4b, tW4c]) =
      (if ([tW4a, tW4b, tW4c].filter
            (fun t => t.categoryId == some "gone")).isEmpty then none
       else some ([tW4a, tW4b, tW4c].filter
            (fun t => t.categoryId == some "gone"))) :=
  ⟨by decide, by decide,
   groupByCategory_spec_C4 [catW4] [tW4a, tW4b, tW4c] catW4 "gone"
     (by decide) (by decide) (by decide) (by decide) (by decide) (by decide)
     (by decide)⟩

theorem decode_encode (n : Nat) : decodeDate (encodeDate n) = n := by
  unfold decodeDate encodeDate
  have hdata : (String.mk (Char.ofNat 68 :: (Nat.digits 10 n).map digitChar)).data =
      Char.ofNat 68 :: (Nat.digits 10 n).map digitChar := rfl
  rw [hdata]
  have hdrop : (Char.ofNat 68 :: (Nat.digits 10 n).map digitChar).drop 1 =
      (Nat.digits 10 n).map digitChar := rfl
  rw [hdrop, List.map_map]
  have hmap : ∀ d ∈ Nat.digits 10 n,
      ((fun c => c.toNat - 48) ∘ digitChar) d = (fun d => d) d := by
    intro d hd
    have h10 : d < 10 := Nat.digits_lt_base (by norm_num) hd
    simp only [Function.comp_apply, digitChar]
    interval_cases d <;> rfl
  rw [List.map_congr_left hmap, List.map_id']
  exact Nat.ofDigits_digits 10 n

theorem encodeDate_data_ne_nil (n : Nat) :
    (encodeDate n).data.isEmpty = false := rfl

theorem priorityOfStr_priorityStr (p : Priority) :
    priorityOfStr (priorityStr p) = p := by
  cases p <;> decide

theorem statusOfStr_statusStr (s : Status) :
    statusOfStr (statusStr s) = s := by
  cases s <;> decide

theorem loadTask_storeTask (t : Task) : loadTask (storeTask t) = t := by
  unfold loadTask storeTask
  cases t with
  | mk id title descr createdAt updatedAt dueDate priority stat categoryId =>
    simp only [decode_encode, priorityOfStr_priorityStr, statusOfStr_statusStr]
    cases dueDate with
    | none => rfl
    | some d =>
      simp only [Option.map_some', encodeDate_data_ne_nil,
        Bool.false_eq_true, if_false, decode_encode]

/-- C9: serializing the task collection (timestamps rendered as strings
by the platform's injective ISO-like rendering, optional fields kept
absent) and rehydrating `createdAt`, `updatedAt` and `dueDate` on load
reproduces the collection exactly, including tasks with absent optional
fields. -/
theorem roundtrip_spec_C9 (tasks : List Task) :
    loadTasks (storeTasks tasks) = tasks := by
  unfold loadTasks storeTasks
  rw [List.map_map]
  have h : ∀ t ∈ tasks, (loadTask ∘ storeTask) t = (fun t => t) t :=
    fun t _ => loadTask_storeTask t
  rw [List.map_congr_left h, List.map_id']

end AlertTasker
